import Mathlib

/-!
Verification of the compatibility shim header
`src/mobile/ios/RichesReach/folly_compat.h`.

The header defines, inside namespace `std`, two type-alias carrier templates
(`unary_function`, `binary_function`) and a single-owner smart pointer
`auto_ptr` with copy-transfers-ownership semantics.

Shallow embedding conventions:
* a raw pointer value `T*` is `Ptr := Option Addr`, where `none` is the null
  pointer `0` and `some a` is a non-null address `a : Nat`;
* `delete p` is modelled by its effect: the list of addresses it deallocates
  (`[]` for null, `[a]` for `some a`);
* each mutating member function returns its result together with the updated
  object state and the list of addresses it deallocated;
* for the ownership invariant, a world of live `auto_ptr` objects is an
  association list from object identities to object states, together with a
  log of all addresses deallocated so far.  Object identity models the C++
  `this` pointer (used by `operator=` in the `this != &other` test).
-/

set_option autoImplicit false
set_option linter.unusedVariables false

namespace FollyCompat

/-- A heap address. -/
abbrev Addr := Nat

/-- A raw pointer `T*`: `none` is the null pointer, `some a` a non-null address. -/
abbrev Ptr := Option Addr

/-- Effect of the C++ statement `delete p`: deallocates the pointed-to address
when `p` is non-null, and is a no-op when `p` is null. -/
def deleteEffect (p : Ptr) : List Addr :=
  p.toList

/-- The state of a `std::auto_ptr<T>` object: its single data member
`T* ptr;` (folly_compat.h line 33). -/
structure auto_ptr where
  ptr : Ptr
  deriving DecidableEq, Repr

/-- `explicit auto_ptr(T* p = 0) : ptr(p) {}` (line 35). -/
def auto_ptr.construct (p : Ptr) : auto_ptr :=
  ⟨p⟩

/-- `~auto_ptr() { delete ptr; }` (line 36): the addresses the destructor
deallocates. -/
def auto_ptr.destruct (o : auto_ptr) : List Addr :=
  deleteEffect o.ptr

/-- `T* get() const { return ptr; }` (line 47). -/
def auto_ptr.get (o : auto_ptr) : Ptr :=
  o.ptr

/-- `T* release() { T* tmp = ptr; ptr = 0; return tmp; }` (lines 48-52):
returns the raw pointer result together with the updated object. -/
def auto_ptr.release (o : auto_ptr) : Ptr × auto_ptr :=
  let tmp := o.ptr
  (tmp, { o with ptr := none })

/-- Copy constructor `auto_ptr(const auto_ptr& other) : ptr(other.release()) {}`
(line 37): returns the newly constructed object together with the updated
source object. -/
def auto_ptr.copyConstruct (other : auto_ptr) : auto_ptr × auto_ptr :=
  let r := other.release
  (⟨r.1⟩, r.2)

/-- Body of `operator=` in the `this != &other` branch (lines 40-42):
`delete ptr; ptr = other.release();`.  Returns the updated target, the
updated source, and the deallocated addresses.  The `this != &other` test
itself is modelled at the world level in `step`, where object identities
are explicit. -/
def auto_ptr.assignFrom (t s : auto_ptr) : (auto_ptr × auto_ptr) × List Addr :=
  let freed := deleteEffect t.ptr
  let r := s.release
  ((⟨r.1⟩, r.2), freed)

/-- `void reset(T* p = 0) { if (ptr != p) { delete ptr; ptr = p; } }`
(lines 53-58): returns the updated object and the deallocated addresses. -/
def auto_ptr.reset (o : auto_ptr) (p : Ptr) : auto_ptr × List Addr :=
  if o.ptr ≠ p then ({ o with ptr := p }, deleteEffect o.ptr)
  else (o, [])

/-! ### A world of live `auto_ptr` objects

C++ objects have identity (`this`); a world maps object identities to object
states and records every address deallocated so far. -/

/-- Identity of a live `auto_ptr` object (models its `this` pointer). -/
abbrev ObjId := Nat

/-- The state of a collection of `auto_ptr` objects: the live objects keyed
by identity, and the log of every address deallocated so far. -/
structure World where
  objs : List (ObjId × auto_ptr)
  freed : List Addr
  deriving DecidableEq, Repr

/-- The object with identity `i` (defaulting to an empty owner when `i` is
not live, which models use of an invalid object). -/
def lookupObj : List (ObjId × auto_ptr) → ObjId → auto_ptr
  | [], _ => ⟨none⟩
  | e :: rest, i => if e.1 = i then e.2 else lookupObj rest i

/-- Replace the state of the (first) object with identity `i`. -/
def updateObj : List (ObjId × auto_ptr) → ObjId → auto_ptr → List (ObjId × auto_ptr)
  | [], _, _ => []
  | e :: rest, i, o => if e.1 = i then (i, o) :: rest else e :: updateObj rest i o

/-- Remove the (first) object with identity `i`. -/
def removeObj : List (ObjId × auto_ptr) → ObjId → List (ObjId × auto_ptr)
  | [], _ => []
  | e :: rest, i => if e.1 = i then rest else e :: removeObj rest i

/-- Number of live objects whose `ptr` member is the non-null address `a`. -/
def ownerCount : List (ObjId × auto_ptr) → Addr → Nat
  | [], _ => 0
  | e :: rest, a => (if e.2.ptr = some a then 1 else 0) + ownerCount rest a

/-- The operations of the `auto_ptr` interface, acting on identified objects. -/
inductive Op where
  | construct (i : ObjId) (p : Ptr)
  | copyConstruct (inew isrc : ObjId)
  | assign (idst isrc : ObjId)
  | release (i : ObjId)
  | reset (i : ObjId) (p : Ptr)
  | destroy (i : ObjId)
  deriving DecidableEq, Repr

/-- One operation on the world.  Each case is the corresponding member
function of `auto_ptr` applied to the identified object(s); `assign`
performs the `this != &other` test of `operator=` (line 39) as an identity
comparison. -/
def step (w : World) : Op → World
  | .construct i p =>
      { w with objs := (i, auto_ptr.construct p) :: w.objs }
  | .copyConstruct inew isrc =>
      let r := (lookupObj w.objs isrc).copyConstruct
      { w with objs := (inew, r.1) :: updateObj w.objs isrc r.2 }
  | .assign idst isrc =>
      if idst = isrc then w
      else
        let t := lookupObj w.objs idst
        let s := lookupObj w.objs isrc
        let r := auto_ptr.assignFrom t s
        { objs := updateObj (updateObj w.objs isrc r.1.2) idst r.1.1,
          freed := w.freed ++ r.2 }
  | .release i =>
      let r := (lookupObj w.objs i).release
      { w with objs := updateObj w.objs i r.2 }
  | .reset i p =>
      let r := (lookupObj w.objs i).reset p
      { objs := updateObj w.objs i r.1, freed := w.freed ++ r.2 }
  | .destroy i =>
      { objs := removeObj w.objs i,
        freed := w.freed ++ (lookupObj w.objs i).destruct }

/-- Run a sequence of operations. -/
def run (w : World) : List Op → World
  | [] => w
  | op :: ops => run (step w op) ops

/-- The world before any operation. -/
def initWorld : World :=
  ⟨[], []⟩

/-- The address `p`, when non-null, is not currently held by any live object. -/
def addrFresh (w : World) (p : Ptr) : Bool :=
  match p with
  | none => true
  | some a => ownerCount w.objs a == 0

/-- Side conditions under which an operation is a legal use of the interface:
every address installed by `construct` must be freshly allocated (not already
owned), and every address installed by `reset` must be freshly allocated or be
the object's own current address.  All other operations are unrestricted. -/
def legalOp (w : World) : Op → Bool
  | .construct _ p => addrFresh w p
  | .reset i p => addrFresh w p || decide ((lookupObj w.objs i).ptr = p)
  | _ => true

/-- Every operation of the sequence is legal in the world it runs in. -/
def Legal (w : World) : List Op → Bool
  | [] => true
  | op :: ops => legalOp w op && Legal (step w op) ops

/-- At most one live object owns any given non-null address. -/
def SingleOwner (w : World) : Prop :=
  ∀ a : Addr, ownerCount w.objs a ≤ 1

/-! ### Helper lemmas about the world representation -/

theorem ownerCount_updateObj_le (l : List (ObjId × auto_ptr)) (i : ObjId)
    (o : auto_ptr) (a : Addr) (h : o.ptr ≠ some a) :
    ownerCount (updateObj l i o) a ≤ ownerCount l a := by
  induction l with
  | nil => simp [updateObj]
  | cons e rest ih =>
    by_cases he : e.1 = i
    · simp only [updateObj, he, if_pos, ownerCount, if_neg h]
      omega
    · simp only [updateObj, if_neg he, ownerCount]
      omega

theorem ownerCount_updateObj_lt (l : List (ObjId × auto_ptr)) (i : ObjId)
    (o : auto_ptr) (a : Addr) (h : o.ptr ≠ some a)
    (hl : (lookupObj l i).ptr = some a) :
    ownerCount (updateObj l i o) a < ownerCount l a := by
  induction l with
  | nil => simp [lookupObj] at hl
  | cons e rest ih =>
    by_cases he : e.1 = i
    · have hE : e.2.ptr = some a := by
        simpa [lookupObj, he] using hl
      have hle := ownerCount_updateObj_le rest i o a h
      simp only [updateObj, he, if_pos, ownerCount, if_neg h, hE, if_pos]
      omega
    · have hl' : (lookupObj rest i).ptr = some a := by
        simpa [lookupObj, he] using hl
      have := ih hl'
      simp only [updateObj, if_neg he, ownerCount]
      omega

theorem ownerCount_updateObj_of_eq_zero (l : List (ObjId × auto_ptr)) (i : ObjId)
    (o : auto_ptr) (a : Addr) (h : ownerCount l a = 0) :
    ownerCount (updateObj l i o) a ≤ 1 := by
  induction l with
  | nil => simp [updateObj, ownerCount]
  | cons e rest ih =>
    have hE : ¬ e.2.ptr = some a := by
      by_contra hE
      simp [ownerCount, hE] at h
    have hrest : ownerCount rest a = 0 := by
      simpa [ownerCount, hE] using h
    by_cases he : e.1 = i
    · have : ownerCount rest a = 0 → ownerCount ((i, o) :: rest) a ≤ 1 := by
        intro h0
        have : ∀ l' : List (ObjId × auto_ptr), ownerCount l' a = 0 →
            ownerCount ((i, o) :: l') a ≤ 1 := by
          intro l' h0'
          simp only [ownerCount]
          split <;> omega
        exact this rest h0
      simp only [updateObj, he, if_pos]
      exact this hrest
    · have := ih hrest
      simp only [updateObj, if_neg he, ownerCount, if_neg hE]
      omega

theorem ownerCount_removeObj_le (l : List (ObjId × auto_ptr)) (i : ObjId)
    (a : Addr) :
    ownerCount (removeObj l i) a ≤ ownerCount l a := by
  induction l with
  | nil => simp [removeObj]
  | cons e rest ih =>
    by_cases he : e.1 = i
    · simp only [removeObj, he, if_pos, ownerCount]
      omega
    · simp only [removeObj, if_neg he, ownerCount]
      omega

theorem updateObj_lookupObj_self (l : List (ObjId × auto_ptr)) (i : ObjId) :
    updateObj l i (lookupObj l i) = l := by
  induction l with
  | nil => simp [updateObj]
  | cons e rest ih =>
    by_cases he : e.1 = i
    · simp only [updateObj, lookupObj, he, if_pos]
      exact congrArg (· :: rest) (Prod.ext he.symm rfl)
    · simp [updateObj, lookupObj, he, ih]

theorem keys_updateObj (l : List (ObjId × auto_ptr)) (i : ObjId) (o : auto_ptr) :
    (updateObj l i o).map Prod.fst = l.map Prod.fst := by
  induction l with
  | nil => simp [updateObj]
  | cons e rest ih =>
    by_cases he : e.1 = i
    · simp [updateObj, he]
    · simp [updateObj, he, ih]

theorem mem_keys_of_lookupObj_ptr_some (l : List (ObjId × auto_ptr)) (i : ObjId)
    (x : Addr) (h : (lookupObj l i).ptr = some x) : i ∈ l.map Prod.fst := by
  induction l with
  | nil => simp [lookupObj] at h
  | cons e rest ih =>
    by_cases he : e.1 = i
    · simp [he]
    · have h' : (lookupObj rest i).ptr = some x := by
        simpa [lookupObj, he] using h
      simpa using Or.inr (ih h')

theorem lookupObj_updateObj_self (l : List (ObjId × auto_ptr)) (i : ObjId)
    (o : auto_ptr) (h : i ∈ l.map Prod.fst) :
    lookupObj (updateObj l i o) i = o := by
  induction l with
  | nil => simp at h
  | cons e rest ih =>
    by_cases he : e.1 = i
    · simp [updateObj, he, lookupObj]
    · have h' : i ∈ rest.map Prod.fst := by
        rcases List.mem_map.mp h with ⟨y, hy, hyi⟩
        rcases List.mem_cons.mp hy with hy | hy
        · exact absurd (hy ▸ hyi) he
        · exact List.mem_map.mpr ⟨y, hy, hyi⟩
      simp [updateObj, he, lookupObj, ih h']

theorem lookupObj_updateObj_ne (l : List (ObjId × auto_ptr)) (i j : ObjId)
    (o : auto_ptr) (h : j ≠ i) :
    lookupObj (updateObj l i o) j = lookupObj l j := by
  induction l with
  | nil => simp [updateObj]
  | cons e rest ih =>
    by_cases he : e.1 = i
    · have : ¬ i = j := fun hij => h hij.symm
      simp [updateObj, he, lookupObj, this]
    · by_cases hej : e.1 = j
      · simp [updateObj, he, lookupObj, hej, h]
      · simp [updateObj, he, lookupObj, hej, ih]

/-! ### Preservation of the single-owner invariant -/

theorem step_preserves_singleOwner (w : World) (op : Op)
    (hw : SingleOwner w) (hop : legalOp w op = true) :
    SingleOwner (step w op) := by
  intro a
  cases op with
  | construct i p =>
    simp only [step, ownerCount]
    rcases p with _ | b
    · simp only [auto_ptr.construct]
      have := hw a
      split <;> simp_all
    · have hfresh : ownerCount w.objs b = 0 := by
        simpa [legalOp, addrFresh] using hop
      by_cases hab : b = a
      · subst hab
        simp [auto_ptr.construct, hfresh]
      · have := hw a
        have hne : ¬ (auto_ptr.construct (some b)).ptr = some a := by
          simp [auto_ptr.construct, hab]
        simp only [if_neg hne]
        omega
  | copyConstruct inew isrc =>
    simp only [step, auto_ptr.copyConstruct, auto_ptr.release, ownerCount]
    by_cases hsp : (lookupObj w.objs isrc).ptr = some a
    · have hlt := ownerCount_updateObj_lt w.objs isrc ⟨none⟩ a (by simp) hsp
      have := hw a
      simp only [hsp, if_pos]
      omega
    · have hle := ownerCount_updateObj_le w.objs isrc ⟨none⟩ a (by simp)
      have := hw a
      simp only [if_neg hsp]
      omega
  | assign idst isrc =>
    by_cases hii : idst = isrc
    · simpa [step, hii] using hw a
    · simp only [step, if_neg hii, auto_ptr.assignFrom, auto_ptr.release]
      by_cases hsp : (lookupObj w.objs isrc).ptr = some a
      · have h1 := ownerCount_updateObj_lt w.objs isrc ⟨none⟩ a (by simp) hsp
        have h0 : ownerCount (updateObj w.objs isrc ⟨none⟩) a = 0 := by
          have := hw a
          omega
        exact ownerCount_updateObj_of_eq_zero _ idst _ a h0
      · have h1 := ownerCount_updateObj_le w.objs isrc ⟨none⟩ a (by simp)
        have h2 := ownerCount_updateObj_le (updateObj w.objs isrc ⟨none⟩) idst
          ⟨(lookupObj w.objs isrc).ptr⟩ a (by simpa using hsp)
        have := hw a
        omega
  | release i =>
    simp only [step, auto_ptr.release]
    have hle := ownerCount_updateObj_le w.objs i ⟨none⟩ a (by simp)
    have := hw a
    omega
  | reset i p =>
    by_cases hcur : (lookupObj w.objs i).ptr = p
    · have hres : (lookupObj w.objs i).reset p = (lookupObj w.objs i, []) := by
        simp [auto_ptr.reset, hcur]
      simp only [step, hres]
      simpa [updateObj_lookupObj_self] using hw a
    · have hres : (lookupObj w.objs i).reset p
          = (⟨p⟩, deleteEffect (lookupObj w.objs i).ptr) := by
        simp [auto_ptr.reset, hcur]
      simp only [step, hres]
      have hfresh : addrFresh w p = true := by
        have : ¬ ((lookupObj w.objs i).ptr = p) := hcur
        simpa [legalOp, this] using hop
      by_cases hpa : p = some a
      · subst hpa
        have h0 : ownerCount w.objs a = 0 := by
          simpa [addrFresh] using hfresh
        exact ownerCount_updateObj_of_eq_zero _ i _ a h0
      · have hle := ownerCount_updateObj_le w.objs i ⟨p⟩ a (by simpa using hpa)
        have := hw a
        omega
  | destroy i =>
    simp only [step]
    have := ownerCount_removeObj_le w.objs i a
    have := hw a
    omega

theorem run_preserves_singleOwner (w : World) (ops : List Op)
    (hw : SingleOwner w) (hl : Legal w ops = true) :
    SingleOwner (run w ops) := by
  induction ops generalizing w with
  | nil => simpa [run] using hw
  | cons op ops ih =>
    have h1 : legalOp w op = true ∧ Legal (step w op) ops = true := by
      simpa [Legal, Bool.and_eq_true] using hl
    exact ih (step w op) (step_preserves_singleOwner w op hw h1.1) h1.2

/-! ### The function-object descriptor shims -/

/-- `std::unary_function<Arg, Result>` (lines 15-18): a stateless struct. -/
structure unary_function (Arg Result : Type) where

/-- `typedef Arg argument_type;` (line 16). -/
def unary_function.argument_type (Arg Result : Type) : Type :=
  Arg

/-- `typedef Result result_type;` (line 17). -/
def unary_function.result_type (Arg Result : Type) : Type :=
  Result

/-- `std::binary_function<Arg1, Arg2, Result>` (lines 21-25): a stateless
struct. -/
structure binary_function (Arg1 Arg2 Result : Type) where

/-- `typedef Arg1 first_argument_type;` (line 22). -/
def binary_function.first_argument_type (Arg1 Arg2 Result : Type) : Type :=
  Arg1

/-- `typedef Arg2 second_argument_type;` (line 23). -/
def binary_function.second_argument_type (Arg1 Arg2 Result : Type) : Type :=
  Arg2

/-- `typedef Result result_type;` (line 24). -/
def binary_function.result_type (Arg1 Arg2 Result : Type) : Type :=
  Result

/-! ### Claims -/

/-- C1, counterexample to the claim as stated: the claim quantifies over
every sequence of operations including construction from arbitrary raw
addresses, but constructing two owners from the same raw address leaves two
live instances owning address 5 — ownership is duplicated. -/
theorem c1_single_owner_counterexample :
    ¬ SingleOwner (run initWorld [Op.construct 0 (some 5), Op.construct 1 (some 5)]) := by
  intro h
  exact absurd (h 5) (by decide)

/-- C1 (amended): for every sequence of construction, copy-construction,
copy-assignment, release, reset and destruction operations in which every
address installed by construction or reset is not already owned by a live
instance (reset to the object's own current address allowed), at most one
live instance owns a given non-null address at any time. -/
theorem c1_single_owner (ops : List Op) (h : Legal initWorld ops = true) :
    SingleOwner (run initWorld ops) :=
  run_preserves_singleOwner initWorld ops (fun a => by simp [initWorld, ownerCount]) h

/-- Witness for C1: a concrete legal sequence exercising every operation. -/
theorem c1_single_owner_witness :
    SingleOwner (run initWorld
      [Op.construct 0 (some 5), Op.copyConstruct 1 0, Op.assign 0 1,
       Op.release 0, Op.reset 0 (some 7), Op.destroy 0, Op.destroy 1]) :=
  c1_single_owner _ (by decide)

/-- C2: copy-constructing from an owner holding address `a` yields a copy
holding `a` and leaves the source null — ownership fully transferred. -/
theorem c2_copyConstruct_transfers (o : auto_ptr) (a : Addr) (h : o.get = some a) :
    o.copyConstruct.1.get = some a ∧ o.copyConstruct.2.get = none := by
  have hp : o.ptr = some a := h
  exact ⟨by simp [auto_ptr.copyConstruct, auto_ptr.release, auto_ptr.get, hp],
    by simp [auto_ptr.copyConstruct, auto_ptr.release, auto_ptr.get]⟩

/-- Witness for C2 at the owner of address 3. -/
theorem c2_copyConstruct_transfers_witness :
    (auto_ptr.construct (some 3)).copyConstruct.1.get = some 3
      ∧ (auto_ptr.construct (some 3)).copyConstruct.2.get = none :=
  c2_copyConstruct_transfers (auto_ptr.construct (some 3)) 3 rfl

/-- C3: assigning between distinct owners, with the target holding `b` and
the source holding `a`, deallocates `b`, leaves the target holding `a` and
leaves the source null. -/
theorem c3_assign_transfers (w : World) (idst isrc : ObjId) (a b : Addr)
    (hne : idst ≠ isrc)
    (ht : (lookupObj w.objs idst).ptr = some b)
    (hs : (lookupObj w.objs isrc).ptr = some a) :
    (step w (.assign idst isrc)).freed = w.freed ++ [b]
      ∧ (lookupObj (step w (.assign idst isrc)).objs idst).ptr = some a
      ∧ (lookupObj (step w (.assign idst isrc)).objs isrc).ptr = none := by
  have hmemd : idst ∈ w.objs.map Prod.fst := mem_keys_of_lookupObj_ptr_some _ _ _ ht
  have hmemd' : idst ∈ (updateObj w.objs isrc ⟨none⟩).map Prod.fst := by
    rw [keys_updateObj]
    exact hmemd
  have hmems : isrc ∈ w.objs.map Prod.fst := mem_keys_of_lookupObj_ptr_some _ _ _ hs
  refine ⟨?_, ?_, ?_⟩
  · simp [step, hne, auto_ptr.assignFrom, auto_ptr.release, deleteEffect, ht]
  · simp only [step, if_neg hne, auto_ptr.assignFrom, auto_ptr.release]
    rw [lookupObj_updateObj_self _ _ _ hmemd']
    simpa using hs
  · simp only [step, if_neg hne, auto_ptr.assignFrom, auto_ptr.release]
    rw [lookupObj_updateObj_ne _ _ _ _ fun hh => hne hh.symm,
      lookupObj_updateObj_self _ _ _ hmems]

/-- Witness for C3: owner 0 holds 2, owner 1 holds 9; after `0 = 1` the
address 2 is freed, owner 0 holds 9, owner 1 is null. -/
theorem c3_assign_transfers_witness :
    (step ⟨[(0, ⟨some 2⟩), (1, ⟨some 9⟩)], []⟩ (.assign 0 1)).freed = [] ++ [2]
      ∧ (lookupObj (step ⟨[(0, ⟨some 2⟩), (1, ⟨some 9⟩)], []⟩ (.assign 0 1)).objs 0).ptr = some 9
      ∧ (lookupObj (step ⟨[(0, ⟨some 2⟩), (1, ⟨some 9⟩)], []⟩ (.assign 0 1)).objs 1).ptr = none :=
  c3_assign_transfers ⟨[(0, ⟨some 2⟩), (1, ⟨some 9⟩)], []⟩ 0 1 9 2 (by decide) rfl rfl

/-- C4: `release` returns the currently held address, leaves the owner null,
and deallocates nothing (the freed log of a release step is unchanged). -/
theorem c4_release_spec (o : auto_ptr) (w : World) (i : ObjId) :
    o.release.1 = o.get ∧ o.release.2.get = none
      ∧ (step w (.release i)).freed = w.freed :=
  ⟨rfl, rfl, rfl⟩

/-- C5: for an owner holding `a` and any address `b ≠ a`, `reset (some b)`
deallocates exactly `a` and installs `b`; `reset (some a)` with the identical
address deallocates nothing and keeps `a`. -/
theorem c5_reset_spec (o : auto_ptr) (a b : Addr) (h : o.get = some a) (hne : b ≠ a) :
    (o.reset (some b)).2 = [a] ∧ (o.reset (some b)).1.get = some b
      ∧ (o.reset (some a)).2 = [] ∧ (o.reset (some a)).1.get = some a := by
  have hp : o.ptr = some a := h
  have hne1 : ¬ o.ptr = some b := by
    rw [hp]
    intro hc
    exact hne (Option.some.inj hc).symm
  have hab : ¬ a = b := fun hc => hne hc.symm
  refine ⟨?_, ?_, ?_, ?_⟩ <;>
    simp [auto_ptr.reset, auto_ptr.get, hp, hne1, hab, deleteEffect]

/-- Witness for C5 at the owner of address 1 and fresh address 2. -/
theorem c5_reset_spec_witness :
    ((auto_ptr.construct (some 1)).reset (some 2)).2 = [1]
      ∧ ((auto_ptr.construct (some 1)).reset (some 2)).1.get = some 2
      ∧ ((auto_ptr.construct (some 1)).reset (some 1)).2 = []
      ∧ ((auto_ptr.construct (some 1)).reset (some 1)).1.get = some 1 :=
  c5_reset_spec (auto_ptr.construct (some 1)) 1 2 rfl (by decide)

/-- C6: destroying an owner holding a non-null address deallocates exactly
that address, exactly once; destroying an empty owner deallocates nothing;
after `release`, or after being the source of a copy, destruction
deallocates nothing. -/
theorem c6_destructor_dealloc (a : Addr) (o : auto_ptr) (h : o.get = some a) :
    o.destruct = [a]
      ∧ (auto_ptr.construct none).destruct = []
      ∧ o.release.2.destruct = []
      ∧ o.copyConstruct.2.destruct = [] := by
  have hp : o.ptr = some a := h
  exact ⟨by simp [auto_ptr.destruct, deleteEffect, hp], rfl, rfl, rfl⟩

/-- Witness for C6 at the owner of address 4. -/
theorem c6_destructor_dealloc_witness :
    (auto_ptr.construct (some 4)).destruct = [4]
      ∧ (auto_ptr.construct none).destruct = []
      ∧ (auto_ptr.construct (some 4)).release.2.destruct = []
      ∧ (auto_ptr.construct (some 4)).copyConstruct.2.destruct = [] :=
  c6_destructor_dealloc 4 (auto_ptr.construct (some 4)) rfl

/-- C7: self-assignment is detected by the `this != &other` test and is a
complete no-op: the world (every object's state and the freed log) is
unchanged, so nothing is deallocated. -/
theorem c7_self_assign_noop (w : World) (i : ObjId) :
    step w (.assign i i) = w := by
  simp [step]

/-- C8: constructing an owner from any address `p` (null included) and then
calling `get` returns `p`; `get` is a pure projection of the state, so it
has no side effect on the owner. -/
theorem c8_construct_get (p : Ptr) :
    (auto_ptr.construct p).get = p :=
  rfl

/-- C9: the unary descriptor exposes `argument_type` and `result_type` equal
to its two parameters, the binary descriptor exposes `first_argument_type`,
`second_argument_type` and `result_type` equal to its three parameters, and
both are stateless (any two values are equal). -/
theorem c9_descriptor_aliases (Arg Result Arg1 Arg2 Result2 : Type) :
    unary_function.argument_type Arg Result = Arg
      ∧ unary_function.result_type Arg Result = Result
      ∧ binary_function.first_argument_type Arg1 Arg2 Result2 = Arg1
      ∧ binary_function.second_argument_type Arg1 Arg2 Result2 = Arg2
      ∧ binary_function.result_type Arg1 Arg2 Result2 = Result2
      ∧ (∀ x y : unary_function Arg Result, x = y)
      ∧ (∀ x y : binary_function Arg1 Arg2 Result2, x = y) := by
  refine ⟨rfl, rfl, rfl, rfl, rfl, fun x y => ?_, fun x y => ?_⟩
  · cases x
    cases y
    rfl
  · cases x
    cases y
    rfl

/-- C10: `reset` with the default null argument on an owner holding `a`
deallocates `a` and leaves the owner null; on the empty owner it
deallocates nothing and leaves it empty. -/
theorem c10_reset_default (o : auto_ptr) (a : Addr) (h : o.get = some a) :
    (o.reset none).2 = [a] ∧ (o.reset none).1.get = none
      ∧ ((auto_ptr.construct none).reset none).2 = []
      ∧ ((auto_ptr.construct none).reset none).1.get = none := by
  have hp : o.ptr = some a := h
  refine ⟨?_, ?_, ?_, ?_⟩ <;>
    simp [auto_ptr.reset, auto_ptr.get, auto_ptr.construct, hp, deleteEffect]

/-- Witness for C10 at the owner of address 7. -/
theorem c10_reset_default_witness :
    ((auto_ptr.construct (some 7)).reset none).2 = [7]
      ∧ ((auto_ptr.construct (some 7)).reset none).1.get = none
      ∧ ((auto_ptr.construct none).reset none).2 = []
      ∧ ((auto_ptr.construct none).reset none).1.get = none :=
  c10_reset_default (auto_ptr.construct (some 7)) 7 rfl

end FollyCompat
